import Mathlib

/-!
Verification of the resvg path-geometry engine and recursive compositor.

The development shallowly embeds `usvg/src/tree/pathdata.rs` and
`crates/resvg/src/render.rs`. Scalars are modelled as exact rationals (`ℚ`):
every counterexample below is chosen so that the floating-point computation of
the source is exact (dyadic values, small integers), so nothing depends on
rounding. Code of the repository that is not part of the given sources
(`usvg` geometry helpers, the `kurbo` numeric kernels) is modelled from the
specification where its behaviour decides a claim; transcendental primitives
(trigonometry, numeric arc length, arc flattening) are abstract parameters,
and every theorem that uses them holds for all instantiations.
-/

namespace Resvg

/-- Modelled from the spec: the "fuzzily zero" comparison threshold used by
the missing `svgtypes::FuzzyZero` implementation; f64 machine epsilon. -/
def epsQ : ℚ := 1 / 2 ^ 52

/-- Modelled from the spec: a value is fuzzily zero when its magnitude does
not exceed the comparison threshold. -/
def isFuzzyZero (q : ℚ) : Bool := |q| ≤ epsQ

/-- Modelled from the spec: the affine transform of the missing
`usvg::Transform` (`svgtypes`), stored as the six SVG matrix entries. -/
structure Transform where
  a : ℚ
  b : ℚ
  c : ℚ
  d : ℚ
  e : ℚ
  f : ℚ
  deriving DecidableEq, Repr

/-- Modelled from the spec: `Transform::apply`, the standard SVG affine map
`(x, y) ↦ (a·x + c·y + e, b·x + d·y + f)`. -/
def Transform.apply (ts : Transform) (x y : ℚ) : ℚ × ℚ :=
  (ts.a * x + ts.c * y + ts.e, ts.b * x + ts.d * y + ts.f)

/-- One absolute path segment: `PathSegment` from `pathdata.rs` in the
arc-preserving (`accurate-arcs`) configuration; the cubic-only configuration
is the sublanguage without `arcTo`. -/
inductive PathSegment where
  | moveTo (x y : ℚ)
  | lineTo (x y : ℚ)
  | curveTo (x1 y1 x2 y2 x y : ℚ)
  | arcTo (rx ry xAxisRotation : ℚ) (largeArc sweep : Bool) (x y : ℚ)
  | closePath
  deriving DecidableEq, Repr

/-- `PathData`: an ordered sequence of absolute segments. -/
abbrev PathData := List PathSegment

/-- Is the segment a `MoveTo`? -/
def PathSegment.isMoveTo : PathSegment → Bool
  | .moveTo _ _ => true
  | _ => false

/-- Is the segment a `ClosePath`? -/
def PathSegment.isClosePath : PathSegment → Bool
  | .closePath => true
  | _ => false

/-- Is the segment an `ArcTo`?  Paths without `ArcTo` segments are exactly
the paths expressible in the cubic-only build configuration. -/
def PathSegment.isArcTo : PathSegment → Bool
  | .arcTo _ _ _ _ _ _ _ => true
  | _ => false

/-- Is the segment handled by a pure endpoint fold in the bounding-box
scans (`MoveTo`, `LineTo`, `ClosePath`)? -/
def PathSegment.isPointwise : PathSegment → Bool
  | .moveTo _ _ => true
  | .lineTo _ _ => true
  | .closePath => true
  | _ => false

/-! ## Subpath iteration (`SubPathIter::next`)

The iterator scans forward from the current index: a `MoveTo` that is not at
the start of the scan ends the slice exclusively, a `ClosePath` ends it
inclusively, and the slice otherwise runs to the end of the sequence. -/

/-- Scan the tail of a subpath: stop before the next `MoveTo`, or just after
the next `ClosePath`, returning the consumed slice and the remainder. -/
def subPathTail : List PathSegment → List PathSegment × List PathSegment
  | [] => ([], [])
  | .moveTo x y :: rest => ([], .moveTo x y :: rest)
  | .closePath :: rest => ([.closePath], rest)
  | s :: rest =>
      let (c, r) := subPathTail rest
      (s :: c, r)

/-- One step of `SubPathIter::next`: the first element of a non-empty slice is
always consumed (a leading `ClosePath` forms a one-element subpath), then the
tail is scanned. -/
def subPathStep : List PathSegment → List PathSegment × List PathSegment
  | [] => ([], [])
  | .closePath :: rest => ([.closePath], rest)
  | s :: rest =>
      let (c, r) := subPathTail rest
      (s :: c, r)

theorem subPathTail_append (segs : List PathSegment) :
    (subPathTail segs).1 ++ (subPathTail segs).2 = segs := by
  induction segs with
  | nil => rfl
  | cons s rest ih =>
      cases s <;> simp [subPathTail, ih]

theorem subPathTail_length (segs : List PathSegment) :
    (subPathTail segs).2.length ≤ segs.length := by
  induction segs with
  | nil => simp [subPathTail]
  | cons s rest ih =>
      cases s <;> simp [subPathTail] <;> omega

theorem subPathStep_append (segs : List PathSegment) :
    (subPathStep segs).1 ++ (subPathStep segs).2 = segs := by
  cases segs with
  | nil => rfl
  | cons s rest =>
      cases s <;> simp [subPathStep, subPathTail_append]

theorem subPathStep_length (s : PathSegment) (rest : List PathSegment) :
    (subPathStep (s :: rest)).2.length < (s :: rest).length := by
  cases s <;> simp [subPathStep] <;>
    exact Nat.lt_succ_of_le (subPathTail_length rest)

/-- `PathData::subpaths`: the full list of subpath slices produced by
repeatedly running the iterator. -/
def subpathsOf (segs : List PathSegment) : List (List PathSegment) :=
  match segs with
  | [] => []
  | s :: rest =>
      (subPathStep (s :: rest)).1 :: subpathsOf (subPathStep (s :: rest)).2
  termination_by segs.length
  decreasing_by
    exact subPathStep_length s rest

/-! ## Handedness flip (`arc_util::does_transform_flip_handedness`) -/

/-- `does_transform_flip_handedness`: extracts the basis vectors
`(a, b)` and `(c, d)` of the transform, builds the x-axis a pure rotation
would pair with the y-axis, and reports a flip when the dot product with the
actual x-axis is negative. -/
def does_transform_flip_handedness (ts : Transform) : Bool :=
  let xAxis := (ts.a, ts.b)
  let yAxis := (ts.c, ts.d)
  let typicalXAxis := (yAxis.2, -yAxis.1)
  decide (typicalXAxis.1 * xAxis.1 + typicalXAxis.2 * xAxis.2 < 0)

/-! ## The external numeric kernel

`kurbo` (arc conversion, arc flattening, numeric arc length) and the missing
`usvg` scalar helpers are external to the given sources.  Their
transcendental parts are collected in one structure of abstract primitives;
every theorem quantifying over an `Ext` holds for all of its instantiations,
and closed statements use the inert `defaultExt` (the claims settled at
`defaultExt` never reach these primitives). -/

/-- A centerpoint-parameterized elliptical arc (`kurbo::Arc`): center, radii,
start angle, sweep angle, x-axis rotation. -/
structure CenterArc where
  cx : ℚ
  cy : ℚ
  rx : ℚ
  ry : ℚ
  startAngle : ℚ
  sweepAngle : ℚ
  xRotation : ℚ
  deriving DecidableEq, Repr

/-- An endpoint-parameterized SVG arc (`kurbo::SvgArc`). -/
structure SvgArcData where
  fromX : ℚ
  fromY : ℚ
  toX : ℚ
  toY : ℚ
  radiiX : ℚ
  radiiY : ℚ
  xRotation : ℚ
  largeArc : Bool
  sweep : Bool
  deriving DecidableEq, Repr

/-- Modelled from the spec: the external numeric primitives.
`mkArc` is the non-degenerate branch of `kurbo::Arc::from_svg_arc` (SVG
implementation notes F.6.5), `fromArc` is `kurbo::SvgArc::from_arc`,
`arcBBox` is the exact ellipse-arc bounding box (`kurbo::Shape` for `Arc`),
`arcPieces` is `Arc::to_cubic_beziers` at tolerance 0.1 (a list of control
and end points), `cubicLen` is `CubicBez::arclen(1.0)`, `lineLen` is
`Line::length`, and `cosM`, `sinM`, `atan2M`, `hypotM` are the f64
transcendental functions (`cosM`/`sinM` take the angle already reduced
modulo 2π as in the source). -/
structure Ext where
  mkArc : ℚ → ℚ → ℚ → ℚ → ℚ → Bool → Bool → ℚ → ℚ → CenterArc
  fromArc : CenterArc → SvgArcData
  arcBBox : CenterArc → ℚ × ℚ × ℚ × ℚ
  arcPieces : CenterArc → List (ℚ × ℚ × ℚ × ℚ × ℚ × ℚ)
  cubicLen : ℚ → ℚ → ℚ → ℚ → ℚ → ℚ → ℚ → ℚ → ℚ
  lineLen : ℚ → ℚ → ℚ → ℚ → ℚ
  cosM : ℚ → ℚ
  sinM : ℚ → ℚ
  atan2M : ℚ → ℚ → ℚ
  hypotM : ℚ → ℚ → ℚ

/-- An inert instantiation of the abstract primitives, used only to close
statements that never evaluate them. -/
def defaultExt : Ext where
  mkArc := fun _ _ _ _ _ _ _ _ _ => ⟨0, 0, 0, 0, 0, 0, 0⟩
  fromArc := fun _ => ⟨0, 0, 0, 0, 0, 0, 0, false, false⟩
  arcBBox := fun _ => (0, 0, 0, 0)
  arcPieces := fun _ => []
  cubicLen := fun _ _ _ _ _ _ _ _ => 0
  lineLen := fun x1 y1 x2 y2 => |x2 - x1| + |y2 - y1|
  cosM := fun _ => 1
  sinM := fun _ => 0
  atan2M := fun _ _ => 0
  hypotM := fun x y => |x| + |y|

/-- Modelled from the spec: `kurbo::SvgArc::is_straight_line`, the degeneracy
test of the endpoint-to-centerpoint conversion — a near-zero radius or
coincident endpoints mean the arc is really a straight line. -/
def isStraightLine (rx ry px py x y : ℚ) : Bool :=
  |rx| ≤ 1 / 100000 || |ry| ≤ 1 / 100000 || (px = x && py = y)

/-- `PathData::convert_svg_arc` (via `kurbo::Arc::from_svg_arc`): `none` for
a degenerate arc, otherwise the centerpoint form. -/
def convert_svg_arc (E : Ext) (px py rx ry xAxisRotation : ℚ)
    (largeArc sweep : Bool) (x y : ℚ) : Option CenterArc :=
  if isStraightLine rx ry px py x y then none
  else some (E.mkArc px py rx ry xAxisRotation largeArc sweep x y)

/-- `arc_util::transform_centerpoint_arc`: transforms the center and two
rotated radius-anchor points, recovers the radii as distances from the
transformed center to the transformed anchors and the rotation from the first
anchor's direction, and negates both angles when the transform flips
handedness. -/
def transform_centerpoint_arc (E : Ext) (arc : CenterArc) (ts : Transform) :
    CenterArc :=
  let centerT := ts.apply arc.cx arc.cy
  let xRotationCos := E.cosM arc.xRotation
  let xRotationSin := E.sinM arc.xRotation
  let rxRot := (arc.rx * xRotationCos + arc.cx, arc.rx * xRotationSin + arc.cy)
  let ryRot := (-arc.ry * xRotationSin + arc.cx, arc.ry * xRotationCos + arc.cy)
  let rxT := ts.apply rxRot.1 rxRot.2
  let ryT := ts.apply ryRot.1 ryRot.2
  let radiiT := (E.hypotM (rxT.1 - centerT.1) (rxT.2 - centerT.2),
                 E.hypotM (ryT.1 - centerT.1) (ryT.2 - centerT.2))
  let xRotationT := E.atan2M (rxT.2 - centerT.2) (rxT.1 - centerT.1)
  let flip : ℚ := if does_transform_flip_handedness ts then -1 else 1
  { cx := centerT.1
    cy := centerT.2
    rx := radiiT.1
    ry := radiiT.2
    startAngle := flip * arc.startAngle
    sweepAngle := flip * arc.sweepAngle
    xRotation := xRotationT }

/-- `arc_util::transform_svg_arc`: endpoint arc to centerpoint form, apply
the transform, convert back; `none` for degenerate inputs. -/
def transform_svg_arc (E : Ext) (px py rx ry xAxisRotation : ℚ)
    (largeArc sweep : Bool) (x y : ℚ) (ts : Transform) : Option SvgArcData :=
  match convert_svg_arc E px py rx ry xAxisRotation largeArc sweep x y with
  | some arc => some (E.fromArc (transform_centerpoint_arc E arc ts))
  | none => none

/-! ## In-place transform (`transform_path`, `PathData::transform_from`)

The in-place pass panics when a non-empty slice does not start with `MoveTo`;
panics are modelled by `none`.  Its running previous point is the already
*transformed* endpoint of the previous segment. -/

/-- The loop body of `transform_path`, threading the (transformed) previous
point. -/
def transformPathGo (E : Ext) (ts : Transform) :
    ℚ → ℚ → List PathSegment → List PathSegment
  | _, _, [] => []
  | px, py, seg :: rest =>
    match seg with
    | .moveTo x y =>
        let (tx, ty) := ts.apply x y
        .moveTo tx ty :: transformPathGo E ts tx ty rest
    | .lineTo x y =>
        let (tx, ty) := ts.apply x y
        .lineTo tx ty :: transformPathGo E ts tx ty rest
    | .curveTo x1 y1 x2 y2 x y =>
        let (tx1, ty1) := ts.apply x1 y1
        let (tx2, ty2) := ts.apply x2 y2
        let (tx, ty) := ts.apply x y
        .curveTo tx1 ty1 tx2 ty2 tx ty :: transformPathGo E ts tx ty rest
    | .arcTo rx ry xAxisRotation largeArc sweep x y =>
        match transform_svg_arc E px py rx ry xAxisRotation largeArc sweep x y ts with
        | some a =>
            .arcTo a.radiiX a.radiiY a.xRotation a.largeArc a.sweep a.toX a.toY ::
              transformPathGo E ts a.toX a.toY rest
        | none =>
            let (tx, ty) := ts.apply x y
            .arcTo rx ry xAxisRotation largeArc sweep tx ty ::
              transformPathGo E ts tx ty rest
    | .closePath => .closePath :: transformPathGo E ts px py rest

/-- `transform_path`: an empty slice is left unchanged; a non-empty slice
whose first segment is not `MoveTo` panics (`none`). -/
def transform_path (E : Ext) (segs : List PathSegment) (ts : Transform) :
    Option (List PathSegment) :=
  match segs with
  | [] => some []
  | .moveTo x y :: _ => some (transformPathGo E ts x y segs)
  | _ => none

/-- `PathData::transform_from(offset, ts)`: applies `transform_path` to the
slice `self[offset..]`, keeping the prefix unchanged.  Rust range slicing
panics when `offset` exceeds the length (modelled by `none`); only
`offset = len` yields the empty slice. -/
def transform_from (E : Ext) (segs : List PathSegment) (offset : ℕ)
    (ts : Transform) : Option (List PathSegment) :=
  if offset ≤ segs.length then
    match transform_path E (segs.drop offset) ts with
    | some t => some (segs.take offset ++ t)
    | none => none
  else none

/-! ## The lazy transformed-path iterator (`TransformedPath`)

The iterator starts its running previous point at the origin and stores the
*untransformed* endpoint of the previous segment; a degenerate arc is emitted
as a transformed `LineTo`. -/

/-- The full sequence yielded by `TransformedPath::new(segs, ts)`, threading
the untransformed previous point. -/
def transformedPathGo (E : Ext) (ts : Transform) :
    ℚ → ℚ → List PathSegment → List PathSegment
  | _, _, [] => []
  | px, py, seg :: rest =>
    match seg with
    | .moveTo x y =>
        let (tx, ty) := ts.apply x y
        .moveTo tx ty :: transformedPathGo E ts x y rest
    | .lineTo x y =>
        let (tx, ty) := ts.apply x y
        .lineTo tx ty :: transformedPathGo E ts x y rest
    | .curveTo x1 y1 x2 y2 x y =>
        let (tx1, ty1) := ts.apply x1 y1
        let (tx2, ty2) := ts.apply x2 y2
        let (tx, ty) := ts.apply x y
        .curveTo tx1 ty1 tx2 ty2 tx ty :: transformedPathGo E ts x y rest
    | .arcTo rx ry xAxisRotation largeArc sweep x y =>
        match transform_svg_arc E px py rx ry xAxisRotation largeArc sweep x y ts with
        | some a =>
            .arcTo a.radiiX a.radiiY a.xRotation a.largeArc a.sweep a.toX a.toY ::
              transformedPathGo E ts a.toX a.toY rest
        | none =>
            let (tx, ty) := ts.apply x y
            .lineTo tx ty :: transformedPathGo E ts x y rest
    | .closePath => .closePath :: transformedPathGo E ts px py rest

/-- All segments yielded by iterating `TransformedPath::new(segs, ts)`. -/
def transformedPath (E : Ext) (segs : List PathSegment) (ts : Transform) :
    List PathSegment :=
  transformedPathGo E ts 0 0 segs

/-! ## Current point and construction helpers -/

/-- The operation-local failure used to model a source `panic!`: the
operation aborts with a distinct invalid-geometry error. -/
inductive GeomErr where
  | invalidGeometry
  deriving DecidableEq, Repr

/-- `PathData::last_pos` (arc-preserving configuration): the endpoint of the
last segment; panics on an empty path and when the last segment is
`ClosePath`. -/
def last_pos (segs : List PathSegment) : Except GeomErr (ℚ × ℚ) :=
  match segs.getLast? with
  | none => .error .invalidGeometry
  | some (.moveTo x y) => .ok (x, y)
  | some (.lineTo x y) => .ok (x, y)
  | some (.curveTo _ _ _ _ x y) => .ok (x, y)
  | some (.arcTo _ _ _ _ _ x y) => .ok (x, y)
  | some .closePath => .error .invalidGeometry

/-- `quad_to_curve`: degree-raising of a quadratic segment to cubic form. -/
def quad_to_curve (px py x1 y1 x y : ℚ) : PathSegment :=
  .curveTo ((px + x1 * 2) / 3) ((py + y1 * 2) / 3)
    ((x + x1 * 2) / 3) ((y + y1 * 2) / 3) x y

/-- `PathData::push_quad_to`: requests the current point and appends the
degree-raised cubic. -/
def push_quad_to (segs : List PathSegment) (x1 y1 x y : ℚ) :
    Except GeomErr (List PathSegment) :=
  match last_pos segs with
  | .ok (px, py) => .ok (segs ++ [quad_to_curve px py x1 y1 x y])
  | .error e => .error e

/-- `PathData::push_arc_to` (arc-preserving configuration): appends the arc
segment as-is. -/
def push_arc_to (segs : List PathSegment) (rx ry xAxisRotation : ℚ)
    (largeArc sweep : Bool) (x y : ℚ) : List PathSegment :=
  segs ++ [.arcTo rx ry xAxisRotation largeArc sweep x y]

/-! ## Arc length of the first subpath (`calc_length`) -/

/-- The loop body of `calc_length`: a later `MoveTo` stops the sum,
`ClosePath` adds the implicit closing segment and stops, straight segments
use `lineLen`, cubic segments use `cubicLen`, and arc segments are flattened
to cubics whose lengths are summed while the running point is threaded
through each flattened piece. -/
def calcLengthGo (E : Ext) (startX startY : ℚ) :
    ℚ → ℚ → ℚ → Bool → List PathSegment → ℚ
  | _, _, acc, _, [] => acc
  | px, py, acc, isFirst, seg :: rest =>
    match seg with
    | .moveTo _ _ =>
        if isFirst then calcLengthGo E startX startY px py acc false rest else acc
    | .lineTo x y =>
        calcLengthGo E startX startY x y (acc + E.lineLen px py x y) false rest
    | .curveTo x1 y1 x2 y2 x y =>
        calcLengthGo E startX startY x y
          (acc + E.cubicLen px py x1 y1 x2 y2 x y) false rest
    | .arcTo rx ry xAxisRotation largeArc sweep x y =>
        match convert_svg_arc E px py rx ry xAxisRotation largeArc sweep x y with
        | some arc =>
            let st := (E.arcPieces arc).foldl
              (fun (st : ℚ × ℚ × ℚ) p =>
                (p.2.2.2.2.1, p.2.2.2.2.2,
                  st.2.2 + E.cubicLen st.1 st.2.1 p.1 p.2.1 p.2.2.1 p.2.2.2.1
                    p.2.2.2.2.1 p.2.2.2.2.2))
              (px, py, acc)
            calcLengthGo E startX startY st.1 st.2.1 st.2.2 false rest
        | none =>
            calcLengthGo E startX startY x y (acc + E.lineLen px py x y) false rest
    | .closePath => acc + E.lineLen px py startX startY

/-- `calc_length`: panics (`invalidGeometry`) unless the first segment is
`MoveTo`; otherwise runs the summing loop over the whole sequence starting
from the first point. -/
def calc_length (E : Ext) (segs : List PathSegment) : Except GeomErr ℚ :=
  match segs with
  | .moveTo x y :: _ => .ok (calcLengthGo E x y x y 0 true segs)
  | _ => .error .invalidGeometry

/-! ## The cubic bounding box (`kurbo::CubicBez::bounding_box`)

Modelled from the spec: the curve's true bounding box via its parametric
extrema.  Exact rational arithmetic can represent the extrema only when the
discriminant of the derivative is a perfect square; otherwise the computation
is undefined (`none`).  Every concrete path below is chosen so that all
extrema are rational (and dyadic, hence float-exact). -/

/-- The exact rational square root, when it exists. -/
def ratSqrt? (q : ℚ) : Option ℚ :=
  if q < 0 then none
  else
    let sn := Int.sqrt q.num
    let sd := Nat.sqrt q.den
    if sn * sn = q.num && sd * sd = q.den then some ((sn : ℚ) / (sd : ℚ))
    else none

/-- `kurbo::common::solve_quadratic` for `c0 + c1·t + c2·t² = 0`, in exact
arithmetic: the degenerate all-zero equation reports the root `0`, a linear
equation its single root, and a genuine quadratic its real roots, undefined
(`none`) when they are irrational. -/
def solve_quadratic? (c0 c1 c2 : ℚ) : Option (List ℚ) :=
  if c2 = 0 then
    if c1 = 0 then some (if c0 = 0 then [0] else [])
    else some [-c0 / c1]
  else
    let d := c1 * c1 - 4 * c2 * c0
    if d < 0 then some []
    else
      match ratSqrt? d with
      | some s => some [(-c1 - s) / (2 * c2), (-c1 + s) / (2 * c2)]
      | none => none

/-- The point of a cubic Bézier with scalar control values `p0 p1 p2 p3` at
parameter `t` (one coordinate axis). -/
def cubicEval (p0 p1 p2 p3 t : ℚ) : ℚ :=
  (1 - t) ^ 3 * p0 + 3 * (1 - t) ^ 2 * t * p1 + 3 * (1 - t) * t ^ 2 * p2
    + t ^ 3 * p3

/-- The extrema parameters of one axis of a cubic: the roots of the
derivative quadratic restricted to the open unit interval. -/
def cubicAxisExtrema? (p0 p1 p2 p3 : ℚ) : Option (List ℚ) :=
  let d0 := p1 - p0
  let d1 := p2 - p1
  let d2 := p3 - p2
  (solve_quadratic? d0 (2 * (d1 - d0)) (d2 - 2 * d1 + d0)).map
    (List.filter fun t => decide (0 < t) && decide (t < 1))

/-- The exact range of one axis of a cubic over the unit interval: the
extrema of the endpoints and of the interior critical values. -/
def cubicAxisRange? (p0 p1 p2 p3 : ℚ) : Option (ℚ × ℚ) :=
  (cubicAxisExtrema? p0 p1 p2 p3).map fun ts =>
    let vals := p0 :: p3 :: ts.map (cubicEval p0 p1 p2 p3)
    (vals.foldl min p0, vals.foldl max p0)

/-- The cubic's bounding box `(x0, y0, x1, y1)`. -/
def cubic_bbox? (p0x p0y p1x p1y p2x p2y p3x p3y : ℚ) :
    Option (ℚ × ℚ × ℚ × ℚ) :=
  match cubicAxisRange? p0x p1x p2x p3x, cubicAxisRange? p0y p1y p2y p3y with
  | some (x0, x1), some (y0, y1) => some (x0, y0, x1, y1)
  | _, _ => none

/-! ## Path bounding box (`calc_bbox`) and its boolean form (`has_bbox`) -/

/-- A rectangle as produced by the missing `usvg::Rect::new`; modelled from
the spec as a plain axis-aligned box (position and extents). -/
structure QRect where
  x : ℚ
  y : ℚ
  w : ℚ
  h : ℚ
  deriving DecidableEq, Repr

/-- The running bbox state: previous point, then min/max corners. -/
abbrev BboxSt := ℚ × ℚ × ℚ × ℚ × ℚ × ℚ

/-- The initial bbox state of `calc_bbox`/`has_bbox`: seeded from the first
segment when it is a `MoveTo`, all zero otherwise. -/
def bboxInit (segs : List PathSegment) : BboxSt :=
  match segs with
  | .moveTo x y :: _ => (x, y, x, y, x, y)
  | _ => (0, 0, 0, 0, 0, 0)

/-- The endpoint fold of `calc_bbox` for `MoveTo`/`LineTo` (and the
degenerate-arc fallback): note the `else if`, exactly as in the source. -/
def bboxFoldPoint (st : BboxSt) (x y : ℚ) : BboxSt :=
  let (_, _, minx, miny, maxx, maxy) := st
  let maxx' := if x > maxx then x else maxx
  let minx' := if x > maxx then minx else if x < minx then x else minx
  let maxy' := if y > maxy then y else maxy
  let miny' := if y > maxy then miny else if y < miny then y else miny
  (x, y, minx', miny', maxx', maxy')

/-- The loop of `calc_bbox`.  Faithful to the source, including its slip:
for `CurveTo` the running previous point is overwritten with the segment's
endpoint *before* the cubic is built, so the cubic whose extrema are taken
starts at its own endpoint rather than at the running current point. -/
def calcBboxGo (E : Ext) : BboxSt → List PathSegment → Option BboxSt
  | st, [] => some st
  | st, seg :: rest =>
    match seg with
    | .moveTo x y => calcBboxGo E (bboxFoldPoint st x y) rest
    | .lineTo x y => calcBboxGo E (bboxFoldPoint st x y) rest
    | .curveTo x1 y1 x2 y2 x y =>
        let (_, _, minx, miny, maxx, maxy) := st
        let px := x
        let py := y
        match cubic_bbox? px py x1 y1 x2 y2 x y with
        | none => none
        | some (rx0, ry0, rx1, ry1) =>
            let minx' := if rx0 < minx then rx0 else minx
            let maxx' := if rx1 > maxx then rx1 else maxx
            let miny' := if ry0 < miny then ry0 else miny
            let maxy' := if ry1 > maxy then ry1 else maxy
            calcBboxGo E (px, py, minx', miny', maxx', maxy') rest
    | .arcTo rx ry xAxisRotation largeArc sweep x y =>
        let (px, py, minx, miny, maxx, maxy) := st
        match convert_svg_arc E px py rx ry xAxisRotation largeArc sweep x y with
        | some arc =>
            let (rx0, ry0, rx1, ry1) := E.arcBBox arc
            let minx' := if rx0 < minx then rx0 else minx
            let maxx' := if rx1 > maxx then rx1 else maxx
            let miny' := if ry0 < miny then ry0 else miny
            let maxy' := if ry1 > maxy then ry1 else maxy
            calcBboxGo E (x, y, minx', miny', maxx', maxy') rest
        | none => calcBboxGo E (bboxFoldPoint st x y) rest
    | .closePath => calcBboxGo E st rest

/-- `calc_bbox`: accumulates the extrema over all segments and returns the
rectangle from the minimum corner with the accumulated extents. -/
def calc_bbox (E : Ext) (segs : List PathSegment) : Option QRect :=
  (calcBboxGo E (bboxInit segs) segs).map fun st =>
    let (_, _, minx, miny, maxx, maxy) := st
    ⟨minx, miny, maxx - minx, maxy - miny⟩

/-- The loop of `has_bbox`.  Faithful to the source, including its two
differences from `calc_bbox`: for `CurveTo` the previous point is *not*
updated, and the fold of the curve's lower y bound reads
`if r.x0 < miny { miny = r.y0 }` (comparing against the x coordinate).
After every segment the accumulated width and height are tested and the scan
returns `true` as soon as neither is fuzzily zero. -/
def hasBboxGo (E : Ext) : BboxSt → List PathSegment → Option Bool
  | _, [] => some false
  | st, seg :: rest =>
    let st'? : Option BboxSt :=
      match seg with
      | .moveTo x y => some (bboxFoldPoint st x y)
      | .lineTo x y => some (bboxFoldPoint st x y)
      | .curveTo x1 y1 x2 y2 x y =>
          let (px, py, minx, miny, maxx, maxy) := st
          match cubic_bbox? px py x1 y1 x2 y2 x y with
          | none => none
          | some (rx0, ry0, rx1, ry1) =>
              let minx' := if rx0 < minx then rx0 else minx
              let maxx' := if rx1 > maxx then rx1 else maxx
              let miny' := if rx0 < miny then ry0 else miny
              let maxy' := if ry1 > maxy then ry1 else maxy
              some (px, py, minx', miny', maxx', maxy')
      | .arcTo rx ry xAxisRotation largeArc sweep x y =>
          let (px, py, minx, miny, maxx, maxy) := st
          match convert_svg_arc E px py rx ry xAxisRotation largeArc sweep x y with
          | some arc =>
              let (rx0, ry0, rx1, ry1) := E.arcBBox arc
              let minx' := if rx0 < minx then rx0 else minx
              let maxx' := if rx1 > maxx then rx1 else maxx
              let miny' := if ry0 < miny then ry0 else miny
              let maxy' := if ry1 > maxy then ry1 else maxy
              some (x, y, minx', miny', maxx', maxy')
          | none => some (bboxFoldPoint st x y)
      | .closePath => some st
    match st'? with
    | none => none
    | some st' =>
        let (_, _, minx, miny, maxx, maxy) := st'
        if !(isFuzzyZero (maxx - minx) || isFuzzyZero (maxy - miny)) then
          some true
        else hasBboxGo E st' rest

/-- `has_bbox`: the short-circuiting scan over the whole path. -/
def has_bbox (E : Ext) (segs : List PathSegment) : Option Bool :=
  hasBboxGo E (bboxInit segs) segs

/-- Membership of a point in a rectangle (closed extent). -/
def QRect.contains (r : QRect) (px py : ℚ) : Bool :=
  decide (r.x ≤ px) && decide (px ≤ r.x + r.w) &&
    decide (r.y ≤ py) && decide (py ≤ r.y + r.h)

/-- The accumulated width of a bbox state. -/
def bboxW (st : BboxSt) : ℚ := st.2.2.2.2.1 - st.2.2.1

/-- The accumulated height of a bbox state. -/
def bboxH (st : BboxSt) : ℚ := st.2.2.2.2.2 - st.2.2.2.1

/-- The per-segment test of `has_bbox`: neither accumulated extent is
fuzzily zero. -/
def bboxCheck (st : BboxSt) : Bool :=
  !(isFuzzyZero (bboxW st) || isFuzzyZero (bboxH st))

/-- Well-formedness of a bbox state: the minimum corner is below the
maximum corner. -/
def stOK (st : BboxSt) : Prop :=
  st.2.2.1 ≤ st.2.2.2.2.1 ∧ st.2.2.2.1 ≤ st.2.2.2.2.2

/-- One bbox state extends another: the minimum corner only moves down and
the maximum corner only moves up. -/
def stMono (s t : BboxSt) : Prop :=
  t.2.2.1 ≤ s.2.2.1 ∧ s.2.2.2.2.1 ≤ t.2.2.2.2.1 ∧
    t.2.2.2.1 ≤ s.2.2.2.1 ∧ s.2.2.2.2.2 ≤ t.2.2.2.2.2

/-! ## The recursive compositor (`crates/resvg/src/render.rs`)

Pixel buffers and the external appliers (rasterizer, filter, clip, mask,
compositing) are abstract: the compositor is embedded over any pixmap type
and any instantiation of the primitives. -/

/-- An integer device-space rectangle (`usvg::ScreenRect`). -/
structure IRect where
  x : ℤ
  y : ℤ
  w : ℤ
  h : ℤ
  deriving DecidableEq, Repr

/-- Pixel membership in an integer rectangle. -/
def memI (p : ℤ × ℤ) (r : IRect) : Bool :=
  decide (r.x ≤ p.1) && decide (p.1 < r.x + r.w) &&
    decide (r.y ≤ p.2) && decide (p.2 < r.y + r.h)

/-- Modelled from the spec: `usvg::ScreenRect::new`, defined only for
positive extents (a zero-area integer layer rectangle is a failure). -/
def screenRectNew (x y w h : ℤ) : Option IRect :=
  if 0 < w ∧ 0 < h then some ⟨x, y, w, h⟩ else none

/-- Modelled from the spec: `usvg::ScreenRect::fit_to_rect`, the clipping of
a rectangle to the given bounds (intersection, with extents clamped to be
nonnegative). -/
def fit_to_rect (r bounds : IRect) : IRect :=
  let x := max r.x bounds.x
  let y := max r.y bounds.y
  ⟨x, y, max 0 (min (r.x + r.w) (bounds.x + bounds.w) - x),
    max 0 (min (r.y + r.h) (bounds.y + bounds.h) - y)⟩

/-- The maximum filter region computed by `Tree::render`: anchored at
`(-width, -height)` with extents twice the canvas size. -/
def max_filter_region (tw th : ℤ) : IRect :=
  ⟨-tw, -th, 2 * tw, 2 * th⟩

/-- The canvas rectangle (`target_size.to_screen_rect()`). -/
def canvasRect (tw th : ℤ) : IRect :=
  ⟨0, 0, tw, th⟩

/-- The integer layer rectangle choice of `render_group`, given the
device-space bbox `b`, the accumulated parent offset, and the target canvas
size: without filters the floored/ceiled bbox is expanded by 2 pixels on
each side, shifted by the parent offset and fitted to the canvas; with
filters it is used as-is and fitted to the maximum filter region. -/
def calcIbbox (hasFilters : Bool) (b : QRect) (offX offY tw th : ℤ) :
    Option IRect :=
  if hasFilters then
    match screenRectNew ⌊b.x⌋ ⌊b.y⌋ ⌈b.w⌉ ⌈b.h⌉ with
    | none => none
    | some r => some (fit_to_rect r (max_filter_region tw th))
  else
    match screenRectNew (⌊b.x⌋ - 2 - offX) (⌊b.y⌋ - 2 - offY)
        (⌈b.w⌉ + 4) (⌈b.h⌉ + 4) with
    | none => none
    | some r => some (fit_to_rect r (canvasRect tw th))

/-- The pure translation transform (`tiny_skia::Transform::from_translate`). -/
def translateTs (tx ty : ℚ) : Transform :=
  ⟨1, 0, 0, 1, tx, ty⟩

/-- Affine composition: `(m.mulT n).apply = m.apply ∘ n.apply`
(`A.pre_concat(B)` of the source is `A.mulT B`). -/
def Transform.mulT (m n : Transform) : Transform :=
  ⟨m.a * n.a + m.c * n.b, m.b * n.a + m.d * n.b,
    m.a * n.c + m.c * n.d, m.b * n.c + m.d * n.d,
    m.a * n.e + m.c * n.f + m.e, m.b * n.e + m.d * n.f + m.f⟩

/-- The data of a `Group` scene node used by the compositor.  `bbox = none`
models the invalid sentinel bounding box (`PathBbox::new_bbox()`), filters
are opaque tags applied in order, and clip path and mask are presence
flags. -/
structure GData where
  bbox : Option QRect
  filters : List Unit
  filterFill : Bool
  filterStroke : Bool
  clipPath : Bool
  mask : Bool
  opacity : ℚ
  deriving DecidableEq, Repr

/-- A scene node: a group with ordered children, or one of the leaf kinds
(their payloads are consumed by external renderers). -/
inductive RNode where
  | group : GData → List RNode → RNode
  | fillPath : RNode
  | strokePath : RNode
  | image : RNode

/-- The external rendering primitives, abstract over the pixmap type:
bbox-to-device-space mapping, layer allocation, the leaf rasterizers, the
filter/clip/mask appliers, and the final layer compositing. -/
structure RenderPrims (Pix : Type) where
  bboxTransform : QRect → Option QRect
  allocate : ℤ → ℤ → Option Pix
  fillOp : Transform → Pix → Pix
  strokeOp : Transform → Pix → Pix
  imageOp : Transform → Pix → Pix
  filterOp : IRect → Bool → Bool → Pix → Pix
  clipOp : Transform → Pix → Pix
  maskOp : ℤ × ℤ → Transform → Pix → Pix
  drawPixmapOp : ℤ → ℤ → ℚ → Pix → Pix → Pix

/-- The body of `render_group`, with the recursive rendering of the children
abstracted as `renderChildren` (the source's call to `render_nodes`).  All
early exits (`None`) happen before anything is drawn into the destination:
an invalid sentinel bbox, a failed device-space mapping, a failed integer
layer rectangle, and a failed layer allocation each return the destination
untouched together with the soft `none` signal. -/
def render_group_step {Pix : Type} (P : RenderPrims Pix) (tw th : ℤ)
    (off : ℤ × ℤ) (ts : Transform)
    (renderChildren : ℤ × ℤ → Transform → Pix → Pix)
    (g : GData) (pix : Pix) : Pix × Option Unit :=
  match g.bbox with
  | none => (pix, none)
  | some b0 =>
    match P.bboxTransform b0 with
    | none => (pix, none)
    | some b =>
      match calcIbbox (!g.filters.isEmpty) b off.1 off.2 tw th with
      | none => (pix, none)
      | some ibbox =>
        let subX := b.x - (ibbox.x : ℚ)
        let subY := b.y - (ibbox.y : ℚ)
        let shiftTs := translateTs (-(b.x - subX)) (-(b.y - subY))
        let ts' := shiftTs.mulT ts
        match P.allocate ibbox.w ibbox.h with
        | none => (pix, none)
        | some sub0 =>
          let sub1 := renderChildren (off.1 + ibbox.x, off.2 + ibbox.y) ts' sub0
          let sub2 := g.filters.foldl
            (fun p _ => P.filterOp ibbox g.filterFill g.filterStroke p) sub1
          let sub3 := if g.clipPath then P.clipOp ts' sub2 else sub2
          let sub4 := if g.mask then P.maskOp (ibbox.x, ibbox.y) ts' sub3 else sub3
          (P.drawPixmapOp ibbox.x ibbox.y g.opacity sub4 pix, some ())

mutual

/-- `render_node`: dispatch on the node kind; the result of a group's soft
failure is discarded, exactly as in the source. -/
def renderNode {Pix : Type} (P : RenderPrims Pix) (tw th : ℤ)
    (off : ℤ × ℤ) (ts : Transform) : RNode → Pix → Pix
  | .group g cs, pix =>
      (render_group_step P tw th off ts
        (fun o t p => renderNodes P tw th o t cs p) g pix).1
  | .fillPath, pix => P.fillOp ts pix
  | .strokePath, pix => P.strokeOp ts pix
  | .image, pix => P.imageOp ts pix

/-- `render_nodes`: every child is rendered in order, regardless of the
outcome of the previous ones. -/
def renderNodes {Pix : Type} (P : RenderPrims Pix) (tw th : ℤ)
    (off : ℤ × ℤ) (ts : Transform) : List RNode → Pix → Pix
  | [], pix => pix
  | n :: rest, pix =>
      renderNodes P tw th off ts rest (renderNode P tw th off ts n pix)

end

/-- `render_group` proper: the step body with the children rendered by the
recursive compositor. -/
def render_group {Pix : Type} (P : RenderPrims Pix) (tw th : ℤ)
    (off : ℤ × ℤ) (ts : Transform) (g : GData) (cs : List RNode)
    (pix : Pix) : Pix × Option Unit :=
  render_group_step P tw th off ts
    (fun o t p => renderNodes P tw th o t cs p) g pix

/-- The maximum filter region as the claim words it: twice the canvas
width/height, centered on the canvas (the canvas center is
`(width/2, height/2)`). -/
def claimFilterRegion (tw th : ℤ) : IRect :=
  ⟨tw / 2 - tw, th / 2 - th, 2 * tw, 2 * th⟩

/-- A concrete pixmap-primitive instantiation over integer "pixmaps" whose
layer allocation always fails; used to close witness statements. -/
def witPrims : RenderPrims ℤ where
  bboxTransform := fun r => some r
  allocate := fun _ _ => none
  fillOp := fun _ p => p + 1
  strokeOp := fun _ p => p + 1
  imageOp := fun _ p => p + 1
  filterOp := fun _ _ _ p => p
  clipOp := fun _ p => p
  maskOp := fun _ _ p => p
  drawPixmapOp := fun _ _ _ _ p => p + 100

/-! # Theorems -/

/-! ## Subpath splitting (C8) -/

theorem subPathTail_no_moveTo (segs : List PathSegment) :
    ∀ s ∈ (subPathTail segs).1, s.isMoveTo = false := by
  induction segs with
  | nil => simp [subPathTail]
  | cons s rest ih =>
      cases s <;> simp_all [subPathTail, PathSegment.isMoveTo]

theorem subPathTail_close_last (segs : List PathSegment) :
    ∀ s ∈ (subPathTail segs).1.dropLast, s.isClosePath = false := by
  induction segs with
  | nil => simp [subPathTail]
  | cons s rest ih =>
      cases s with
      | moveTo x y => simp [subPathTail]
      | closePath => simp [subPathTail]
      | lineTo x y =>
          rcases h : (subPathTail rest).1 with _ | ⟨c, cs⟩
          · simp [subPathTail, h]
          · simpa [subPathTail, h, PathSegment.isClosePath] using fun s hs =>
              ih s (by simp [h, List.dropLast, hs])
      | curveTo a b c d x y =>
          rcases h : (subPathTail rest).1 with _ | ⟨c, cs⟩
          · simp [subPathTail, h]
          · simpa [subPathTail, h, PathSegment.isClosePath] using fun s hs =>
              ih s (by simp [h, List.dropLast, hs])
      | arcTo rx ry rot la sw x y =>
          rcases h : (subPathTail rest).1 with _ | ⟨c, cs⟩
          · simp [subPathTail, h]
          · simpa [subPathTail, h, PathSegment.isClosePath] using fun s hs =>
              ih s (by simp [h, List.dropLast, hs])

theorem subPathStep_chunk_shape (segs : List PathSegment) :
    ∀ s ∈ (subPathStep segs).1.tail, s.isMoveTo = false := by
  cases segs with
  | nil => simp [subPathStep]
  | cons s rest =>
      cases s <;> simp [subPathStep] <;> exact subPathTail_no_moveTo rest

theorem subPathStep_close_last (segs : List PathSegment) :
    ∀ s ∈ (subPathStep segs).1.dropLast, s.isClosePath = false := by
  cases segs with
  | nil => simp [subPathStep]
  | cons s rest =>
      cases s with
      | closePath => simp [subPathStep]
      | moveTo x y =>
          rcases h : (subPathTail rest).1 with _ | ⟨c, cs⟩
          · simp [subPathStep, h]
          · simpa [subPathStep, h, PathSegment.isClosePath] using fun a ha =>
              subPathTail_close_last rest a (by simp [h, List.dropLast, ha])
      | lineTo x y =>
          rcases h : (subPathTail rest).1 with _ | ⟨c, cs⟩
          · simp [subPathStep, h]
          · simpa [subPathStep, h, PathSegment.isClosePath] using fun a ha =>
              subPathTail_close_last rest a (by simp [h, List.dropLast, ha])
      | curveTo a b c d x y =>
          rcases h : (subPathTail rest).1 with _ | ⟨c, cs⟩
          · simp [subPathStep, h]
          · simpa [subPathStep, h, PathSegment.isClosePath] using fun a ha =>
              subPathTail_close_last rest a (by simp [h, List.dropLast, ha])
      | arcTo rx ry rot la sw x y =>
          rcases h : (subPathTail rest).1 with _ | ⟨c, cs⟩
          · simp [subPathStep, h]
          · simpa [subPathStep, h, PathSegment.isClosePath] using fun a ha =>
              subPathTail_close_last rest a (by simp [h, List.dropLast, ha])

theorem subPathStep_ne_nil (s : PathSegment) (rest : List PathSegment) :
    (subPathStep (s :: rest)).1 ≠ [] := by
  cases s <;> simp [subPathStep]

theorem subpathsOf_flatten (segs : List PathSegment) :
    (subpathsOf segs).flatten = segs := by
  induction segs using subpathsOf.induct with
  | case1 => simp [subpathsOf]
  | case2 s rest ih =>
      rw [subpathsOf]
      show (subPathStep (s :: rest)).1 ++
        (subpathsOf (subPathStep (s :: rest)).2).flatten = s :: rest
      rw [ih]
      exact subPathStep_append (s :: rest)

theorem subpathsOf_chunks (segs : List PathSegment) :
    ∀ c ∈ subpathsOf segs, c ≠ [] ∧
      (∀ s ∈ c.tail, s.isMoveTo = false) ∧
      (∀ s ∈ c.dropLast, s.isClosePath = false) := by
  induction segs using subpathsOf.induct with
  | case1 => simp [subpathsOf]
  | case2 s rest ih =>
      rw [subpathsOf]
      intro c hc
      rcases List.mem_cons.mp hc with rfl | hc
      · exact ⟨subPathStep_ne_nil s rest, subPathStep_chunk_shape (s :: rest),
          subPathStep_close_last (s :: rest)⟩
      · exact ih c hc

/-- C8: the slices produced by `subpaths()` are contiguous and in order —
concatenating them reconstructs the original segment sequence exactly — and
each slice is non-empty, contains `MoveTo` only as its first segment (so a
new subpath begins at every later `MoveTo`), and contains `ClosePath` only
as its last segment (a subpath ends inclusively at `ClosePath`, exclusively
at the next `MoveTo` or at the end of the sequence). -/
theorem C8_subpaths_reconstruct (segs : List PathSegment) :
    (subpathsOf segs).flatten = segs ∧
      ∀ c ∈ subpathsOf segs, c ≠ [] ∧
        (∀ s ∈ c.tail, s.isMoveTo = false) ∧
        (∀ s ∈ c.dropLast, s.isClosePath = false) :=
  ⟨subpathsOf_flatten segs, subpathsOf_chunks segs⟩

/-! ## Handedness-flip detection (C9) -/

/-- C9: `does_transform_flip_handedness` is true for every pure axis
reflection (one axis negated, and more generally any reflection matrix) and
false for the identity, every pure rotation, and every uniform positive
scale. -/
theorem C9_flip_handedness (e f : ℚ) :
    does_transform_flip_handedness ⟨-1, 0, 0, 1, e, f⟩ = true ∧
    does_transform_flip_handedness ⟨1, 0, 0, -1, e, f⟩ = true ∧
    (∀ a b : ℚ, a ^ 2 + b ^ 2 = 1 →
      does_transform_flip_handedness ⟨a, b, b, -a, e, f⟩ = true) ∧
    does_transform_flip_handedness ⟨1, 0, 0, 1, e, f⟩ = false ∧
    (∀ c s : ℚ, c ^ 2 + s ^ 2 = 1 →
      does_transform_flip_handedness ⟨c, s, -s, c, e, f⟩ = false) ∧
    (∀ s : ℚ, 0 < s →
      does_transform_flip_handedness ⟨s, 0, 0, s, e, f⟩ = false) := by
  refine ⟨?_, ?_, ?_, ?_, ?_, ?_⟩
  · simp [does_transform_flip_handedness]
  · simp [does_transform_flip_handedness]
  · intro a b h
    simp only [does_transform_flip_handedness, decide_eq_true_eq]
    nlinarith
  · simp [does_transform_flip_handedness]
  · intro c s h
    simp only [does_transform_flip_handedness, decide_eq_false_iff_not, not_lt]
    nlinarith
  · intro s h
    simp only [does_transform_flip_handedness, decide_eq_false_iff_not, not_lt]
    nlinarith

/-- Witness for C9 at concrete inputs: the rotation by the (3,4,5) angle
and the uniform scale 2. -/
theorem C9_flip_handedness_witness :
    does_transform_flip_handedness ⟨-1, 0, 0, 1, 7, 8⟩ = true ∧
    does_transform_flip_handedness ⟨3/5, 4/5, 4/5, -(3/5), 7, 8⟩ = true ∧
    does_transform_flip_handedness ⟨3/5, 4/5, -(4/5), 3/5, 7, 8⟩ = false ∧
    does_transform_flip_handedness ⟨2, 0, 0, 2, 7, 8⟩ = false := by
  obtain ⟨h1, _, h3, _, h5, h6⟩ := C9_flip_handedness 7 8
  exact ⟨h1, h3 (3/5) (4/5) (by norm_num), h5 (3/5) (4/5) (by norm_num),
    h6 2 (by norm_num)⟩

/-! ## Totality of `transform` on the empty slice (C10) -/

/-- C10: `transform()` and `transform_from()` are total on the empty segment
slice, returning the path unchanged without aborting — the empty path for
`transform()`, and exactly `offset = len` for `transform_from()`, since
range slicing past the length panics out of bounds (`none`) — while a
non-empty slice whose first segment is not `MoveTo` makes them abort (the
source's panic, modelled by `none`). -/
theorem C10_transform_empty_total (E : Ext) (ts : Transform) :
    transform_path E [] ts = some [] ∧
    (∀ segs : List PathSegment,
      transform_from E segs segs.length ts = some segs) ∧
    (∀ seg : PathSegment, ∀ rest : List PathSegment, seg.isMoveTo = false →
      transform_path E (seg :: rest) ts = none) ∧
    (∀ seg : PathSegment, ∀ segs : List PathSegment, ∀ offset,
      offset < segs.length →
      segs.drop offset = seg :: (segs.drop (offset + 1)) →
      seg.isMoveTo = false → transform_from E segs offset ts = none) ∧
    (∀ segs : List PathSegment, ∀ offset, segs.length < offset →
      transform_from E segs offset ts = none) := by
  refine ⟨rfl, ?_, ?_, ?_, ?_⟩
  · intro segs
    unfold transform_from
    rw [if_pos (le_refl _), List.drop_length]
    simp [transform_path, List.take_length]
  · intro seg rest h
    cases seg <;> simp_all [transform_path, PathSegment.isMoveTo]
  · intro seg segs offset hlt hdrop h
    have hp : transform_path E (segs.drop offset) ts = none := by
      rw [hdrop]
      cases seg <;> simp_all [transform_path, PathSegment.isMoveTo]
    unfold transform_from
    rw [if_pos (Nat.le_of_lt hlt), hp]
  · intro segs offset h
    unfold transform_from
    rw [if_neg (by omega)]

/-- Witness for C10 at concrete inputs: the empty path, the offset equal to
the length, a path starting with `LineTo`, a non-`MoveTo` slice head at an
in-bounds offset, and an out-of-bounds offset. -/
theorem C10_transform_empty_total_witness :
    transform_path defaultExt [] ⟨1, 0, 0, 1, 5, 5⟩ = some [] ∧
    transform_from defaultExt [.moveTo 1 2] 1 ⟨1, 0, 0, 1, 5, 5⟩ =
      some [.moveTo 1 2] ∧
    transform_path defaultExt [.lineTo 3 4] ⟨1, 0, 0, 1, 5, 5⟩ = none ∧
    transform_from defaultExt [.moveTo 1 2, .lineTo 3 4] 1 ⟨1, 0, 0, 1, 5, 5⟩ =
      none ∧
    transform_from defaultExt [.moveTo 1 2] 5 ⟨1, 0, 0, 1, 5, 5⟩ = none := by
  obtain ⟨h1, h2, h3, h4, h5⟩ :=
    C10_transform_empty_total defaultExt ⟨1, 0, 0, 1, 5, 5⟩
  exact ⟨h1, h2 [.moveTo 1 2],
    h3 (.lineTo 3 4) [] (by decide),
    h4 (.lineTo 3 4) [.moveTo 1 2, .lineTo 3 4] 1 (by decide) (by decide)
      (by decide),
    h5 [.moveTo 1 2] 5 (by decide)⟩

/-! ## Operation-local invalid-geometry failures (C6) -/

/-- C6: requesting the current point of an empty path (`last_pos`, as used by
`push_quad_to`/`push_arc_to`) and computing the length of a sequence whose
first segment is not `MoveTo` fail with the distinct invalid-geometry error
of the single operation (the source's panic), while `last_pos` succeeds on
every path ending in a point-carrying segment. -/
theorem C6_invalid_geometry_local (E : Ext) :
    last_pos [] = .error .invalidGeometry ∧
    (∀ x1 y1 x y : ℚ, push_quad_to [] x1 y1 x y = .error .invalidGeometry) ∧
    calc_length E [] = .error .invalidGeometry ∧
    (∀ seg : PathSegment, ∀ rest : List PathSegment, seg.isMoveTo = false →
      calc_length E (seg :: rest) = .error .invalidGeometry) ∧
    (∀ segs : List PathSegment, ∀ x y : ℚ,
      segs.getLast? = some (.lineTo x y) → last_pos segs = .ok (x, y)) := by
  refine ⟨rfl, ?_, rfl, ?_, ?_⟩
  · intro x1 y1 x y
    simp [push_quad_to, last_pos]
  · intro seg rest h
    cases seg <;> simp_all [calc_length, PathSegment.isMoveTo]
  · intro segs x y h
    simp [last_pos, h]

/-- Witness for C6 at concrete inputs. -/
theorem C6_invalid_geometry_local_witness :
    push_quad_to [] 1 1 2 2 = .error .invalidGeometry ∧
    calc_length defaultExt [.lineTo 3 4] = .error .invalidGeometry ∧
    last_pos [.moveTo 0 0, .lineTo 3 4] = .ok (3, 4) := by
  obtain ⟨_, h2, _, h4, h5⟩ := C6_invalid_geometry_local defaultExt
  exact ⟨h2 1 1 2 2, h4 (.lineTo 3 4) [] (by decide),
    h5 [.moveTo 0 0, .lineTo 3 4] 3 4 (by decide)⟩

/-! ## Length of the first subpath only (C7) -/

theorem calcLengthGo_tail (E : Ext) (sx sy : ℚ) :
    ∀ (rest : List PathSegment) (px py acc : ℚ),
      calcLengthGo E sx sy px py acc false rest =
        calcLengthGo E sx sy px py acc false (subPathTail rest).1 := by
  intro rest
  induction rest with
  | nil => intro px py acc; rfl
  | cons s r ih =>
      intro px py acc
      cases s with
      | moveTo x y => simp [calcLengthGo, subPathTail]
      | closePath => simp [calcLengthGo, subPathTail]
      | lineTo x y => simp [calcLengthGo, subPathTail, ih]
      | curveTo x1 y1 x2 y2 x y => simp [calcLengthGo, subPathTail, ih]
      | arcTo rx ry rot la sw x y =>
          simp only [calcLengthGo, subPathTail]
          cases convert_svg_arc E px py rx ry rot la sw x y <;> simp [ih]

/-- C7: for every path whose first segment is `MoveTo`, and for every
instantiation of the numeric length primitives (Euclidean line length,
numeric cubic arc length, arc flattening), `length()` equals the length of
the path's own first subpath slice: the sum stops at the first later
`MoveTo` (excluded), just after the first `ClosePath` (whose implicit
closing segment back to the start is part of the loop body), or at the end
of the sequence. -/
theorem C7_length_first_subpath (E : Ext) (x y : ℚ)
    (rest : List PathSegment) :
    calc_length E (.moveTo x y :: rest) =
      calc_length E ((subpathsOf (.moveTo x y :: rest)).headD []) := by
  rw [subpathsOf]
  show calc_length E (.moveTo x y :: rest) =
    calc_length E (subPathStep (.moveTo x y :: rest)).1
  simp only [subPathStep, calc_length]
  simp only [calcLengthGo, if_true]
  exact congrArg Except.ok (calcLengthGo_tail E x y rest x y 0)

/-! ## Lazy transformed iteration versus in-place transform (C2) -/

theorem transformGo_eq_transformedGo (E : Ext) (ts : Transform) :
    ∀ (segs : List PathSegment) (px py qx qy : ℚ),
      (∀ s ∈ segs, s.isArcTo = false) →
      transformPathGo E ts px py segs = transformedPathGo E ts qx qy segs := by
  intro segs
  induction segs with
  | nil => intros; rfl
  | cons s r ih =>
      intro px py qx qy h
      have hs := h s (List.mem_cons_self s r)
      have hr : ∀ a ∈ r, a.isArcTo = false := fun a ha =>
        h a (List.mem_cons_of_mem _ ha)
      cases s with
      | arcTo rx ry rot la sw x y => simp [PathSegment.isArcTo] at hs
      | moveTo x y =>
          simp only [transformPathGo, transformedPathGo]
          exact congrArg _ (ih _ _ _ _ hr)
      | lineTo x y =>
          simp only [transformPathGo, transformedPathGo]
          exact congrArg _ (ih _ _ _ _ hr)
      | curveTo x1 y1 x2 y2 x y =>
          simp only [transformPathGo, transformedPathGo]
          exact congrArg _ (ih _ _ _ _ hr)
      | closePath =>
          simp only [transformPathGo, transformedPathGo]
          exact congrArg _ (ih _ _ _ _ hr)

/-- C2 (amended): for every path without `ArcTo` segments — the cubic-only
build configuration — that is empty or starts with `MoveTo`, iterating
`TransformedPath::new(P, ts)` yields exactly the segment sequence that the
in-place `P.transform(ts)` produces.  (In the arc-preserving configuration
the two disagree: see the counterexample.) -/
theorem C2_transformed_path_equiv (E : Ext) (ts : Transform)
    (segs : List PathSegment)
    (hnoarc : ∀ s ∈ segs, s.isArcTo = false)
    (hhead : segs = [] ∨ ∃ x y rest, segs = .moveTo x y :: rest) :
    transform_path E segs ts = some (transformedPath E segs ts) := by
  rcases hhead with rfl | ⟨x, y, rest, rfl⟩
  · rfl
  · show some _ = some _
    exact congrArg some
      (transformGo_eq_transformedGo E ts _ _ _ _ _ hnoarc)

/-- Witness for C2 (amended) at a concrete cubic-only path and transform. -/
theorem C2_transformed_path_equiv_witness :
    transform_path defaultExt
        [.moveTo 1 2, .lineTo 3 4, .curveTo 5 6 7 8 9 10, .closePath]
        ⟨2, 0, 0, 2, 1, 1⟩ =
      some (transformedPath defaultExt
        [.moveTo 1 2, .lineTo 3 4, .curveTo 5 6 7 8 9 10, .closePath]
        ⟨2, 0, 0, 2, 1, 1⟩) :=
  C2_transformed_path_equiv defaultExt ⟨2, 0, 0, 2, 1, 1⟩
    [.moveTo 1 2, .lineTo 3 4, .curveTo 5 6 7 8 9 10, .closePath]
    (by decide) (Or.inr ⟨1, 2, [.lineTo 3 4, .curveTo 5 6 7 8 9 10, .closePath],
      rfl⟩)

/-- Counterexample to C2 as stated: in the arc-preserving configuration a
degenerate arc (zero x-radius) is kept as an `ArcTo` segment by the in-place
`transform()` (only its endpoint is transformed) but is emitted as a
`LineTo` by the `TransformedPath` iterator, so even under the identity
transform the two segment sequences differ in the segment variant. -/
theorem C2_transformed_path_equiv_counterexample :
    transform_path defaultExt [.moveTo 0 0, .arcTo 0 1 0 false false 1 0]
        ⟨1, 0, 0, 1, 0, 0⟩ =
      some [.moveTo 0 0, .arcTo 0 1 0 false false 1 0] ∧
    transformedPath defaultExt [.moveTo 0 0, .arcTo 0 1 0 false false 1 0]
        ⟨1, 0, 0, 1, 0, 0⟩ =
      [.moveTo 0 0, .lineTo 1 0] ∧
    transform_path defaultExt [.moveTo 0 0, .arcTo 0 1 0 false false 1 0]
        ⟨1, 0, 0, 1, 0, 0⟩ ≠
      some (transformedPath defaultExt
        [.moveTo 0 0, .arcTo 0 1 0 false false 1 0] ⟨1, 0, 0, 1, 0, 0⟩) := by
  have hc : convert_svg_arc defaultExt 0 0 0 1 0 false false 1 0 = none := by
    norm_num [convert_svg_arc, isStraightLine]
  have ha : transform_svg_arc defaultExt 0 0 0 1 0 false false 1 0
      ⟨1, 0, 0, 1, 0, 0⟩ = none := by
    unfold transform_svg_arc
    rw [hc]
  have happ : ∀ x y : ℚ, Transform.apply ⟨1, 0, 0, 1, 0, 0⟩ x y = (x, y) := by
    intro x y
    simp [Transform.apply]
  have h1 : transform_path defaultExt
      [.moveTo 0 0, .arcTo 0 1 0 false false 1 0] ⟨1, 0, 0, 1, 0, 0⟩ =
      some [.moveTo 0 0, .arcTo 0 1 0 false false 1 0] := by
    rw [transform_path]
    simp only [transformPathGo, happ, ha]
  have h2 : transformedPath defaultExt
      [.moveTo 0 0, .arcTo 0 1 0 false false 1 0] ⟨1, 0, 0, 1, 0, 0⟩ =
      [.moveTo 0 0, .lineTo 1 0] := by
    rw [transformedPath]
    simp only [transformedPathGo, happ, ha]
  refine ⟨h1, h2, ?_⟩
  rw [h1, h2]
  simp

/-! ## The bounding box misses the exact curve (C1) -/

/-- C1: refuted — a code bug.  `calc_bbox` overwrites the running previous
point with the cubic segment's endpoint *before* building the curve whose
parametric extrema it takes, so the extrema are those of a curve that starts
at its own endpoint.  For `M (0,1); C (1,2) (1,2) (3,0)` the returned box is
`[0,3] × [0,3/2]`, while the true cubic starting at the current point
`(0,1)` passes through `(9/8, 13/8)` at `t = 1/2` — outside the box.  All
values are dyadic, so the f64 computation of the source is exact. -/
theorem C1_calc_bbox_misses_curve_point :
    calc_bbox defaultExt [.moveTo 0 1, .curveTo 1 2 1 2 3 0] =
      some ⟨0, 0, 3, 3/2⟩ ∧
    cubicEval 0 1 1 3 (1/2) = 9/8 ∧
    cubicEval 1 2 2 0 (1/2) = 13/8 ∧
    QRect.contains ⟨0, 0, 3, 3/2⟩ (9/8) (13/8) = false := by
  have hcb : cubic_bbox? 3 0 1 2 1 2 3 0 = some (3/2, 0, 3, 3/2) := by
    norm_num [cubic_bbox?, cubicAxisRange?, cubicAxisExtrema?,
      solve_quadratic?, cubicEval, List.filter]
  refine ⟨?_, by norm_num [cubicEval], by norm_num [cubicEval], ?_⟩
  · norm_num [calc_bbox, calcBboxGo, bboxInit, bboxFoldPoint, hcb]
  · norm_num [QRect.contains]

/-! ## `has_bbox` versus `bbox` (C3) -/

theorem bboxFoldPoint_mono (st : BboxSt) (x y : ℚ) :
    stMono st (bboxFoldPoint st x y) := by
  obtain ⟨px, py, minx, miny, maxx, maxy⟩ := st
  simp only [bboxFoldPoint, stMono]
  refine ⟨?_, ?_, ?_, ?_⟩ <;> split_ifs <;> linarith

theorem stMono_rfl (st : BboxSt) : stMono st st :=
  ⟨le_refl _, le_refl _, le_refl _, le_refl _⟩

theorem stMono_trans {s t u : BboxSt} (h1 : stMono s t) (h2 : stMono t u) :
    stMono s u := by
  obtain ⟨a1, a2, a3, a4⟩ := h1
  obtain ⟨b1, b2, b3, b4⟩ := h2
  exact ⟨le_trans b1 a1, le_trans a2 b2, le_trans b3 a3, le_trans a4 b4⟩

theorem stOK_of_mono {s t : BboxSt} (hok : stOK s) (hm : stMono s t) :
    stOK t := by
  obtain ⟨a1, a2⟩ := hok
  obtain ⟨b1, b2, b3, b4⟩ := hm
  exact ⟨le_trans b1 (le_trans a1 b2), le_trans b3 (le_trans a2 b4)⟩

theorem bboxCheck_mono {s t : BboxSt} (hok : stOK s) (hm : stMono s t)
    (hc : bboxCheck s = true) : bboxCheck t = true := by
  obtain ⟨a1, a2⟩ := hok
  obtain ⟨b1, b2, b3, b4⟩ := hm
  simp only [bboxCheck, bboxW, bboxH, isFuzzyZero, Bool.not_eq_true',
    Bool.or_eq_false_iff, decide_eq_false_iff_not, not_le] at hc ⊢
  obtain ⟨h1, h2⟩ := hc
  rw [abs_of_nonneg (sub_nonneg.mpr a1)] at h1
  rw [abs_of_nonneg (sub_nonneg.mpr a2)] at h2
  constructor
  · have : epsQ < t.2.2.2.2.1 - t.2.2.1 := by linarith
    calc epsQ < t.2.2.2.2.1 - t.2.2.1 := this
      _ ≤ |t.2.2.2.2.1 - t.2.2.1| := le_abs_self _
  · have : epsQ < t.2.2.2.2.2 - t.2.2.2.1 := by linarith
    calc epsQ < t.2.2.2.2.2 - t.2.2.2.1 := this
      _ ≤ |t.2.2.2.2.2 - t.2.2.2.1| := le_abs_self _

theorem hasBboxGo_moveTo (E : Ext) (st : BboxSt) (x y : ℚ)
    (r : List PathSegment) :
    hasBboxGo E st (.moveTo x y :: r) =
      if bboxCheck (bboxFoldPoint st x y) then some true
      else hasBboxGo E (bboxFoldPoint st x y) r := by
  obtain ⟨px, py, minx, miny, maxx, maxy⟩ := st
  simp [hasBboxGo, bboxFoldPoint, bboxCheck, bboxW, bboxH]

theorem hasBboxGo_lineTo (E : Ext) (st : BboxSt) (x y : ℚ)
    (r : List PathSegment) :
    hasBboxGo E st (.lineTo x y :: r) =
      if bboxCheck (bboxFoldPoint st x y) then some true
      else hasBboxGo E (bboxFoldPoint st x y) r := by
  obtain ⟨px, py, minx, miny, maxx, maxy⟩ := st
  simp [hasBboxGo, bboxFoldPoint, bboxCheck, bboxW, bboxH]

theorem hasBboxGo_closePath (E : Ext) (st : BboxSt) (r : List PathSegment) :
    hasBboxGo E st (.closePath :: r) =
      if bboxCheck st then some true else hasBboxGo E st r := by
  obtain ⟨px, py, minx, miny, maxx, maxy⟩ := st
  simp [hasBboxGo, bboxCheck, bboxW, bboxH]

theorem bbox_scan_pointwise (E : Ext) :
    ∀ (segs : List PathSegment) (st : BboxSt),
      (∀ s ∈ segs, s.isPointwise = true) → stOK st →
      ∃ st', calcBboxGo E st segs = some st' ∧ stMono st st' ∧ stOK st' ∧
        (bboxCheck st = false →
          hasBboxGo E st segs = some (bboxCheck st')) := by
  intro segs
  induction segs with
  | nil =>
      intro st _ hok
      refine ⟨st, rfl, stMono_rfl st, hok, fun h => ?_⟩
      simp [hasBboxGo, h]
  | cons s r ih =>
      intro st hp hok
      have hs := hp s (List.mem_cons_self s r)
      have hr : ∀ a ∈ r, a.isPointwise = true := fun a ha =>
        hp a (List.mem_cons_of_mem _ ha)
      cases s with
      | curveTo x1 y1 x2 y2 x y => simp [PathSegment.isPointwise] at hs
      | arcTo rx ry rot la sw x y => simp [PathSegment.isPointwise] at hs
      | closePath =>
          obtain ⟨stf, hcalc, hm, hokf, hhas⟩ := ih st hr hok
          refine ⟨stf, by simpa [calcBboxGo] using hcalc, hm, hokf, ?_⟩
          intro hc
          rw [hasBboxGo_closePath, hc]
          simpa using hhas hc
      | moveTo x y =>
          have hm1 := bboxFoldPoint_mono st x y
          have hok1 := stOK_of_mono hok hm1
          obtain ⟨stf, hcalc, hm, hokf, hhas⟩ :=
            ih (bboxFoldPoint st x y) hr hok1
          refine ⟨stf, by simpa [calcBboxGo] using hcalc,
            stMono_trans hm1 hm, hokf, ?_⟩
          intro _
          rw [hasBboxGo_moveTo]
          cases hchk : bboxCheck (bboxFoldPoint st x y) with
          | true =>
              rw [bboxCheck_mono hok1 hm hchk]
              simp
          | false =>
              simpa using hhas hchk
      | lineTo x y =>
          have hm1 := bboxFoldPoint_mono st x y
          have hok1 := stOK_of_mono hok hm1
          obtain ⟨stf, hcalc, hm, hokf, hhas⟩ :=
            ih (bboxFoldPoint st x y) hr hok1
          refine ⟨stf, by simpa [calcBboxGo] using hcalc,
            stMono_trans hm1 hm, hokf, ?_⟩
          intro _
          rw [hasBboxGo_lineTo]
          cases hchk : bboxCheck (bboxFoldPoint st x y) with
          | true =>
              rw [bboxCheck_mono hok1 hm hchk]
              simp
          | false =>
              simpa using hhas hchk

theorem bboxInit_ok (segs : List PathSegment) : stOK (bboxInit segs) := by
  cases segs with
  | nil => exact ⟨le_refl _, le_refl _⟩
  | cons s r =>
      cases s <;> exact ⟨le_refl _, le_refl _⟩

theorem bboxInit_check (segs : List PathSegment) :
    bboxCheck (bboxInit segs) = false := by
  have hz : isFuzzyZero 0 = true := by
    simp [isFuzzyZero, epsQ]
  cases segs with
  | nil => simp [bboxInit, bboxCheck, bboxW, bboxH, hz]
  | cons s r =>
      cases s <;> simp [bboxInit, bboxCheck, bboxW, bboxH, hz]

/-- C3 (amended): for every non-empty path consisting of `MoveTo`, `LineTo`
and `ClosePath` segments, `has_bbox(P)` is true if and only if `bbox(P)`
yields a rectangle whose width AND height are both not fuzzily zero.  (The
claim's "width or height" fails on any horizontal line, and for paths with
curve segments `has_bbox` folds the curve's vertical extent through the
comparison `r.x0 < miny`, so even the conjunctive reading fails: see the
counterexample.) -/
theorem C3_has_bbox_iff_area (E : Ext) (segs : List PathSegment)
    (h : ∀ s ∈ segs, s.isPointwise = true) :
    ∃ r : QRect, calc_bbox E segs = some r ∧
      has_bbox E segs = some (!(isFuzzyZero r.w) && !(isFuzzyZero r.h)) := by
  obtain ⟨stf, hcalc, _, _, hhas⟩ :=
    bbox_scan_pointwise E segs (bboxInit segs) h (bboxInit_ok segs)
  obtain ⟨p1, p2, m1, m2, m3, m4⟩ := stf
  refine ⟨⟨m1, m2, m3 - m1, m4 - m2⟩, ?_, ?_⟩
  · simp [calc_bbox, hcalc]
  · rw [has_bbox, hhas (bboxInit_check segs)]
    simp [bboxCheck, bboxW, bboxH]

/-- Witness for C3 (amended) at a concrete pointwise path. -/
theorem C3_has_bbox_iff_area_witness :
    ∃ r : QRect,
      calc_bbox defaultExt [.moveTo 0 0, .lineTo 5 0, .lineTo 5 5] = some r ∧
      has_bbox defaultExt [.moveTo 0 0, .lineTo 5 0, .lineTo 5 5] =
        some (!(isFuzzyZero r.w) && !(isFuzzyZero r.h)) :=
  C3_has_bbox_iff_area defaultExt [.moveTo 0 0, .lineTo 5 0, .lineTo 5 5]
    (by decide)

/-- Counterexample to C3 as stated: for
`M (0,10); L (20,10); C (20,0) (20,0) (20,10)` the bounding box is
`[0,20] × [5/2,10]` — width 20 and height 15/2, neither fuzzily zero — yet
`has_bbox` returns false: its curve fold compares the curve's lower x bound
against the accumulated minimum y (`if r.x0 < miny { miny = r.y0 }`), so it
never sees the curve's vertical extent.  All values are dyadic, so the f64
computation of the source is exact. -/
theorem C3_has_bbox_counterexample :
    has_bbox defaultExt
        [.moveTo 0 10, .lineTo 20 10, .curveTo 20 0 20 0 20 10] =
      some false ∧
    calc_bbox defaultExt
        [.moveTo 0 10, .lineTo 20 10, .curveTo 20 0 20 0 20 10] =
      some ⟨0, 5/2, 20, 15/2⟩ ∧
    isFuzzyZero (20 : ℚ) = false ∧ isFuzzyZero (15/2 : ℚ) = false := by
  have hcb : cubic_bbox? 20 10 20 0 20 0 20 10 = some (20, 5/2, 20, 10) := by
    norm_num [cubic_bbox?, cubicAxisRange?, cubicAxisExtrema?,
      solve_quadratic?, cubicEval, List.filter]
  refine ⟨?_, ?_, ?_, ?_⟩
  · norm_num [has_bbox, hasBboxGo, bboxInit, bboxFoldPoint, hcb,
      isFuzzyZero, epsQ]
  · norm_num [calc_bbox, calcBboxGo, bboxInit, bboxFoldPoint, hcb]
  · norm_num [isFuzzyZero, epsQ]
  · have habs : |(15 : ℚ)/2| = 15/2 := abs_of_nonneg (by norm_num)
    norm_num [isFuzzyZero, epsQ, habs]

/-! ## The integer layer rectangle (C4) -/

theorem memI_fit (p : ℤ × ℤ) (r bounds : IRect) :
    memI p (fit_to_rect r bounds) = (memI p r && memI p bounds) := by
  simp only [memI, fit_to_rect, ← Bool.decide_and, decide_eq_decide]
  omega

/-- C4 (amended): given the device-space bbox, a group without filters gets
the integer rectangle holding exactly the pixels of the floored/ceiled bbox
expanded by 2 on each side (shifted by the accumulated parent offset) that
lie on the target canvas; a group with filters is not clipped to the canvas
but to the maximum filter region — which is anchored with its *center at
the canvas origin*, spanning `[-width, width] × [-height, height]`, not
centered on the canvas. -/
theorem C4_ibbox_choice (b : QRect) (offX offY tw th : ℤ)
    (hw : 0 < ⌈b.w⌉) (hh : 0 < ⌈b.h⌉) :
    (∃ r, calcIbbox false b offX offY tw th = some r ∧
      ∀ p : ℤ × ℤ, memI p r =
        (memI (p.1 + offX, p.2 + offY)
            ⟨⌊b.x⌋ - 2, ⌊b.y⌋ - 2, ⌈b.w⌉ + 4, ⌈b.h⌉ + 4⟩ &&
          memI p (canvasRect tw th))) ∧
    (∃ r, calcIbbox true b offX offY tw th = some r ∧
      ∀ p : ℤ × ℤ, memI p r =
        (memI p ⟨⌊b.x⌋, ⌊b.y⌋, ⌈b.w⌉, ⌈b.h⌉⟩ &&
          memI p (max_filter_region tw th))) := by
  constructor
  · refine ⟨fit_to_rect ⟨⌊b.x⌋ - 2 - offX, ⌊b.y⌋ - 2 - offY, ⌈b.w⌉ + 4,
      ⌈b.h⌉ + 4⟩ (canvasRect tw th), ?_, ?_⟩
    · simp only [calcIbbox, Bool.false_eq_true, if_false, screenRectNew]
      rw [if_pos ⟨by omega, by omega⟩]
    · intro p
      rw [memI_fit]
      simp only [memI, ← Bool.decide_and, decide_eq_decide]
      omega
  · refine ⟨fit_to_rect ⟨⌊b.x⌋, ⌊b.y⌋, ⌈b.w⌉, ⌈b.h⌉⟩
      (max_filter_region tw th), ?_, ?_⟩
    · simp only [calcIbbox, if_true, screenRectNew]
      rw [if_pos ⟨hw, hh⟩]
    · intro p
      rw [memI_fit]

/-- Witness for C4 (amended) at a concrete bbox, offset and canvas. -/
theorem C4_ibbox_choice_witness :
    (∃ r, calcIbbox false ⟨1/2, 1/2, 3, 3⟩ 5 7 100 50 = some r ∧
      ∀ p : ℤ × ℤ, memI p r =
        (memI (p.1 + 5, p.2 + 7) ⟨⌊(1/2 : ℚ)⌋ - 2, ⌊(1/2 : ℚ)⌋ - 2,
            ⌈(3 : ℚ)⌉ + 4, ⌈(3 : ℚ)⌉ + 4⟩ &&
          memI p (canvasRect 100 50))) ∧
    (∃ r, calcIbbox true ⟨1/2, 1/2, 3, 3⟩ 5 7 100 50 = some r ∧
      ∀ p : ℤ × ℤ, memI p r =
        (memI p ⟨⌊(1/2 : ℚ)⌋, ⌊(1/2 : ℚ)⌋, ⌈(3 : ℚ)⌉, ⌈(3 : ℚ)⌉⟩ &&
          memI p (max_filter_region 100 50))) :=
  C4_ibbox_choice ⟨1/2, 1/2, 3, 3⟩ 5 7 100 50 (by norm_num) (by norm_num)

/-- Counterexample to C4 as stated: on a 100×100 canvas, a filtered group
with device bbox `[101, 149] × [0, 100]` gets the integer rectangle
`⟨101, 0, 0, 100⟩` — empty, because the code's maximum filter region spans
`[-100, 100]` — although the pixel `(120, 50)` lies inside the bbox clipped
to the claim's canvas-centered region `[-50, 150] × [-50, 150]`. -/
theorem C4_ibbox_counterexample :
    calcIbbox true ⟨101, 0, 48, 100⟩ 0 0 100 100 = some ⟨101, 0, 0, 100⟩ ∧
    memI (120, 50) ⟨101, 0, 0, 100⟩ = false ∧
    memI (120, 50)
      (fit_to_rect ⟨101, 0, 48, 100⟩ (claimFilterRegion 100 100)) = true := by
  refine ⟨?_, by decide, by decide⟩
  have h1 : ⌊(101 : ℚ)⌋ = 101 := by norm_num
  have h2 : ⌊(0 : ℚ)⌋ = 0 := by norm_num
  have h3 : ⌈(48 : ℚ)⌉ = 48 := by norm_num
  have h4 : ⌈(100 : ℚ)⌉ = 100 := by norm_num
  simp only [calcIbbox, if_true, screenRectNew, h1, h2, h3, h4]
  rw [if_pos ⟨by omega, by omega⟩]
  simp [fit_to_rect, max_filter_region]

/-! ## Soft failure of a group's compositing step (C5) -/

/-- C5: an invalid sentinel bounding box, a failed device-space mapping, a
degenerate (zero-area) integer layer rectangle, or a failed pixel-layer
allocation each make `render_group` return the soft "nothing drawn" signal
with the destination pixmap unchanged, and `render_nodes` continues with
the remaining sibling nodes exactly as if the group were absent.  This
holds over every pixmap type and every instantiation of the external
rendering primitives. -/
theorem C5_group_soft_failure {Pix : Type} (P : RenderPrims Pix)
    (tw th : ℤ) (off : ℤ × ℤ) (ts : Transform) (g : GData)
    (cs rest : List RNode) (pix : Pix)
    (h : g.bbox = none
      ∨ (∃ b0, g.bbox = some b0 ∧ P.bboxTransform b0 = none)
      ∨ (∃ b0 b, g.bbox = some b0 ∧ P.bboxTransform b0 = some b ∧
          calcIbbox (!g.filters.isEmpty) b off.1 off.2 tw th = none)
      ∨ (∃ b0 b r, g.bbox = some b0 ∧ P.bboxTransform b0 = some b ∧
          calcIbbox (!g.filters.isEmpty) b off.1 off.2 tw th = some r ∧
          P.allocate r.w r.h = none)) :
    render_group P tw th off ts g cs pix = (pix, none) ∧
    renderNodes P tw th off ts (.group g cs :: rest) pix =
      renderNodes P tw th off ts rest pix := by
  have hg : render_group P tw th off ts g cs pix = (pix, none) := by
    rcases h with h1 | ⟨b0, h1, h2⟩ | ⟨b0, b, h1, h2, h3⟩ |
      ⟨b0, b, r, h1, h2, h3, h4⟩
    · simp [render_group, render_group_step, h1]
    · simp [render_group, render_group_step, h1, h2]
    · simp [render_group, render_group_step, h1, h2, h3]
    · simp [render_group, render_group_step, h1, h2, h3, h4]
  refine ⟨hg, ?_⟩
  rw [renderNodes]
  rw [show renderNode P tw th off ts (.group g cs) pix = pix from ?_]
  rw [renderNode]
  show (render_group_step P tw th off ts _ g pix).1 = pix
  rw [show render_group_step P tw th off ts
    (fun o t p => renderNodes P tw th o t cs p) g pix = (pix, none) from hg]

/-- Witness for C5 at a concrete group whose layer allocation fails, with an
image sibling. -/
theorem C5_group_soft_failure_witness :
    render_group witPrims 100 100 (0, 0) ⟨1, 0, 0, 1, 0, 0⟩
        ⟨some ⟨0, 0, 10, 10⟩, [], false, false, false, false, 1⟩ [] (0 : ℤ) =
      (0, none) ∧
    renderNodes witPrims 100 100 (0, 0) ⟨1, 0, 0, 1, 0, 0⟩
        [.group ⟨some ⟨0, 0, 10, 10⟩, [], false, false, false, false, 1⟩ [],
          .image] (0 : ℤ) =
      renderNodes witPrims 100 100 (0, 0) ⟨1, 0, 0, 1, 0, 0⟩ [.image] (0 : ℤ) := by
  have hib : calcIbbox false ⟨0, 0, 10, 10⟩ 0 0 100 100 =
      some ⟨0, 0, 12, 12⟩ := by
    have h1 : ⌊(0 : ℚ)⌋ = 0 := by norm_num
    have h2 : ⌈(10 : ℚ)⌉ = 10 := by norm_num
    simp only [calcIbbox, Bool.false_eq_true, if_false, screenRectNew, h1, h2]
    rw [if_pos ⟨by omega, by omega⟩]
    simp [fit_to_rect, canvasRect]
  exact C5_group_soft_failure witPrims 100 100 (0, 0) ⟨1, 0, 0, 1, 0, 0⟩
    ⟨some ⟨0, 0, 10, 10⟩, [], false, false, false, false, 1⟩ [] [.image] 0
    (Or.inr (Or.inr (Or.inr ⟨⟨0, 0, 10, 10⟩, ⟨0, 0, 10, 10⟩, ⟨0, 0, 12, 12⟩,
      rfl, rfl, hib, rfl⟩)))

end Resvg
